import Mathlib

/-! # gql-template: type resolution over a parsed GraphQL schema

A shallow embedding of the resolver functions of `main.go` (the helper
functions handed to the template engine, `goSingleType`, `spannerGoSingleType`
and `isObject`) together with the properties established about them.

Conventions of the embedding.

* The parsed schema (`ast.Schema`, `ast.Definition`, `ast.FieldDefinition`,
  `ast.Type` of gqlparser) is modelled by plain data. A Go map is a list of
  key/value pairs read with `List.lookup`.
* `ast.Type.Elem` is a pointer that may be nil: `AstType.ref` is a type whose
  `Elem` is nil, `AstType.wrap` one whose `Elem` is set. Reading through a nil
  `Elem` is the outcome `Outcome.nilDeref`.
* `log.Fatalf` is the outcome `Outcome.fatal`, carrying the type name logged.
* `goSingleType` and `spannerGoSingleType` are recursive without a structural
  measure, so they take a call budget: every call of either consumes one unit
  and `Outcome.outOfFuel` is the result of a call made with budget zero.
* The third-party string libraries (`strcase.ToCamel`, `inflection.Plural`,
  `inflection.Singular`) are parameters, collected in `Lib`.
* The two regular expressions are modelled by their meaning under Go's
  `regexp` package without flags: `^` is the start of the text, `$` its end
  and `.` is any character but the newline.
-/

set_option autoImplicit false

namespace GqlTemplate

/-! ## Data model -/

/-- The external string functions the program calls. -/
structure Lib where
  /-- The function strcase.ToCamel. -/
  ToCamel : String → String
  /-- The function inflection.Plural. -/
  Plural : String → String
  /-- The function inflection.Singular. -/
  Singular : String → String

/-- The gqlparser type reference: `ref` has a nil Elem, `wrap` a set one. -/
inductive AstType where
  | ref (NamedType : String) (NonNull : Bool)
  | wrap (NamedType : String) (Elem : AstType) (NonNull : Bool)
  deriving DecidableEq, Repr

/-- Field NamedType of a type reference. -/
def AstType.NamedType : AstType → String
  | .ref n _ => n
  | .wrap n _ _ => n

/-- Field Elem of a type reference, none standing for nil. -/
def AstType.Elem : AstType → Option AstType
  | .ref _ _ => none
  | .wrap _ e _ => some e

/-- Field NonNull of a type reference. -/
def AstType.NonNull : AstType → Bool
  | .ref _ b => b
  | .wrap _ _ b => b

/-- The gqlparser field definition, restricted to the fields the program
reads; Type_ is the field Type, a reserved word here. -/
structure FieldDefinition where
  Description : String
  Name : String
  Type_ : AstType
  deriving DecidableEq, Repr

/-- The gqlparser type definition, restricted to the fields the program reads. -/
structure Definition where
  Kind : String
  Description : String
  Name : String
  Fields : List FieldDefinition
  deriving DecidableEq, Repr

/-- The gqlparser schema: the map Types from type name to definition. -/
structure Schema where
  Types : List (String × Definition)
  deriving DecidableEq, Repr

/-- Map read body.Types[name] with its ok flag. -/
def Schema.find (body : Schema) (name : String) : Option Definition :=
  body.Types.lookup name

/-- How a call ends: with a value, in log.Fatalf, in a nil pointer
dereference, or with the call budget used up. -/
inductive Outcome (α : Type) where
  | ok (v : α)
  | fatal (typeName : String)
  | nilDeref
  | outOfFuel
  deriving DecidableEq, Repr

/-- String concatenation p + call, the call being evaluated after p. -/
def Outcome.prepend (p : String) : Outcome String → Outcome String
  | .ok s => .ok (p ++ s)
  | .fatal n => .fatal n
  | .nilDeref => .nilDeref
  | .outOfFuel => .outOfFuel

/-! ## String primitives of the Go standard library -/

/-- Whether the first list starts the second one. -/
def startsWithList : List Char → List Char → Bool
  | [], _ => true
  | _ :: _, [] => false
  | p :: ps, c :: cs => p == c && startsWithList ps cs

/-- The function strings.Contains on character lists. -/
def containsList : List Char → List Char → Bool
  | [], sub => startsWithList sub []
  | c :: cs, sub => startsWithList sub (c :: cs) || containsList cs sub

/-- The function strings.Contains. -/
def strContains (s sub : String) : Bool :=
  containsList s.data sub.data

/-- Remainder of the text after a leading literal, when it starts with it. -/
def dropLiteral : List Char → List Char → Option (List Char)
  | [], s => some s
  | _ :: _, [] => none
  | p :: ps, c :: cs => if p = c then dropLiteral ps cs else none

/-- The optional single space of the two regular expressions: greedy, so a
leading space is consumed whenever there is one. -/
def skipSpace : List Char → List Char
  | [] => []
  | c :: tl => if c = ' ' then tl else c :: tl

/-- Submatch 1 of the regular expression `^LIT ?(.*)$` on a text, Go regexp
semantics without flags: the text starts with the literal, one space after it
is skipped when there is one, and the group takes the rest, which reaches the
end of the text only if it holds no newline. -/
def findSubmatch1 (lit : String) (text : String) : Option String :=
  match dropLiteral lit.data text.data with
  | none => none
  | some rest =>
    let value := skipSpace rest
    if value.contains '\n' then none else some (String.mk value)

/-- The regular expression gotypeRe, read through FindStringSubmatch. -/
def gotypeRe (desc : String) : Option String :=
  findSubmatch1 "GoType:" desc

/-- The regular expression spanColumnRe, read through FindStringSubmatch. -/
def spanColumnRe (desc : String) : Option String :=
  findSubmatch1 "SpannerColumn:" desc

/-! ## The resolver -/

/-- The loop condition shared by foundPK, goSingleType and
spannerGoSingleType: the field is taken as the primary key of objName. -/
def pkCond (L : Lib) (objName : String) (f : FieldDefinition) : Bool :=
  strContains f.Description "SpannerPK" || L.ToCamel f.Name == "Id"
    || L.ToCamel f.Name == L.ToCamel (objName ++ "Id")

/-- Helper foundPK of the function map: the first field satisfying the
condition, nil (none) when the loop ends without one. -/
def foundPK (L : Lib) (objName : String) : List FieldDefinition → Option FieldDefinition
  | [] => none
  | f :: rest => if pkCond L objName f then some f else foundPK L objName rest

/-- Helper exists of the function map. -/
def existsField (L : Lib) (d : Definition) (name : String) : Bool :=
  d.Fields.any fun it => L.ToCamel it.Name == name

/-- Function addPtPrefixIfNull. -/
def addPtPrefixIfNull (t : AstType) : String :=
  if t.NonNull then "" else "*"

/-- Function goSingleType, with a call budget. -/
def goSingleType (L : Lib) : Nat → AstType → Schema → Bool → Outcome String
  | 0, _, _, _ => .outOfFuel
  | fuel + 1, t, body, replace =>
    if t.NamedType = "ID" ∨ t.NamedType = "String" then .ok "string"
    else if t.NamedType = "Int" then .ok "int64"
    else if t.NamedType = "Float" then .ok "float64"
    else if t.NamedType = "Boolean" then .ok "bool"
    else
      match body.find t.NamedType with
      | some d =>
        match gotypeRe d.Description with
        | some m => .ok m
        | none =>
          if !replace then .ok t.NamedType
          else
            match foundPK L t.NamedType d.Fields with
            | some f => goSingleType L fuel f.Type_ body replace
            | none => .ok "string"
      | none => .fatal t.NamedType


/-- Helper GoType of the function map. The three cases of its switch are kept
apart as in the source. -/
def GoType (L : Lib) (fuel : Nat) (f : FieldDefinition) (body : Schema)
    (replaceObjectType : Bool) : Outcome String :=
  if f.Type_.NamedType = "ID" ∨ f.Type_.NamedType = "String" ∨ f.Type_.NamedType = "Int"
      ∨ f.Type_.NamedType = "Float" ∨ f.Type_.NamedType = "Boolean" then
    (goSingleType L fuel f.Type_ body replaceObjectType).prepend (addPtPrefixIfNull f.Type_)
  else if f.Type_.NamedType = "" then
    match f.Type_.Elem with
    | none => .nilDeref
    | some e => (goSingleType L fuel e body replaceObjectType).prepend ("[]" ++ addPtPrefixIfNull e)
  else
    (goSingleType L fuel f.Type_ body replaceObjectType).prepend (addPtPrefixIfNull f.Type_)

/-- Function spannerGoSingleType, with a call budget. -/
def spannerGoSingleType (L : Lib) : Nat → FieldDefinition → Schema → Bool → Outcome String
  | 0, _, _, _ => .outOfFuel
  | fuel + 1, f, body, replaceObjectType =>
    if f.Type_.NamedType = "ID" ∨ f.Type_.NamedType = "String" then
      if f.Type_.NonNull then goSingleType L fuel f.Type_ body replaceObjectType
      else .ok "spanner.NullString"
    else if f.Type_.NamedType = "Int" then
      if f.Type_.NonNull then goSingleType L fuel f.Type_ body replaceObjectType
      else .ok "spanner.NullInt64"
    else if f.Type_.NamedType = "Float" then
      if f.Type_.NonNull then goSingleType L fuel f.Type_ body replaceObjectType
      else .ok "spanner.NullFloat64"
    else if f.Type_.NamedType = "Boolean" then
      if f.Type_.NonNull then goSingleType L fuel f.Type_ body replaceObjectType
      else .ok "spanner.NullBool"
    else if f.Type_.NamedType = "" then
      match f.Type_.Elem with
      | none => .nilDeref
      | some e => (goSingleType L fuel e body replaceObjectType).prepend ("[]" ++ addPtPrefixIfNull e)
    else
      match body.find f.Type_.NamedType with
      | some d =>
        if d.Kind = "ENUM" then
          if f.Type_.NonNull then
            (goSingleType L fuel f.Type_ body replaceObjectType).prepend (addPtPrefixIfNull f.Type_)
          else .ok "spanner.NullString"
        else if d.Kind = "OBJECT" then
          if f.Type_.NonNull || !replaceObjectType then
            (goSingleType L fuel f.Type_ body replaceObjectType).prepend (addPtPrefixIfNull f.Type_)
          else
            -- the loop over def.Fields, which is the loop of foundPK; the call
            -- made on a match passes f itself and the flag false
            match foundPK L f.Type_.NamedType d.Fields with
            | some _ => spannerGoSingleType L fuel f body false
            | none => .ok "spanner.NullString"
        else
          (goSingleType L fuel f.Type_ body replaceObjectType).prepend (addPtPrefixIfNull f.Type_)
      | none =>
        (goSingleType L fuel f.Type_ body replaceObjectType).prepend (addPtPrefixIfNull f.Type_)

/-- Helper SpannerGoType of the function map. -/
def SpannerGoType (L : Lib) (fuel : Nat) (f : FieldDefinition) (body : Schema)
    (replaceObjectType : Bool) : Outcome String :=
  spannerGoSingleType L fuel f body replaceObjectType

/-- The named type a field refers to, as isObject and ConvertObjectFieldName
compute it: that of the element when the field's own one is empty. -/
def targetNamedType (f : FieldDefinition) : Outcome String :=
  if f.Type_.NamedType = "" then
    match f.Type_.Elem with
    | none => .nilDeref
    | some e => .ok e.NamedType
  else .ok f.Type_.NamedType

/-- Function isObject. -/
def isObject (f : FieldDefinition) (body : Schema) : Outcome Bool :=
  match targetNamedType f with
  | .ok namedType =>
    match body.find namedType with
    | some d => if d.Kind = "OBJECT" then .ok true else .ok false
    | none => .ok false
  | .fatal n => .fatal n
  | .nilDeref => .nilDeref
  | .outOfFuel => .outOfFuel

/-- Helper convertName of the function map. -/
def convertName (f : FieldDefinition) : String :=
  match spanColumnRe f.Description with
  | some m => m
  | none => f.Name

/-- Helper ConvertObjectFieldName of the function map. -/
def ConvertObjectFieldName (L : Lib) (f : FieldDefinition) (body : Schema) : Outcome String :=
  match isObject f body with
  | .ok false => .ok f.Name
  | .ok true =>
    let name := match spanColumnRe f.Description with
      | some m => m
      | none => f.Name
    let isArray : Bool := f.Type_.NamedType = ""
    match targetNamedType f with
    | .ok namedType =>
      match body.find namedType with
      | some d =>
        if d.Kind = "OBJECT" then
          if isArray then .ok (L.Plural (L.Singular name ++ "Id"))
          else .ok (name ++ "Id")
        else .ok name
      | none => .ok name
    | .fatal n => .fatal n
    | .nilDeref => .nilDeref
    | .outOfFuel => .outOfFuel
  | .fatal n => .fatal n
  | .nilDeref => .nilDeref
  | .outOfFuel => .outOfFuel

/-! ## A concrete instance of the string libraries, for worked examples -/

/-- The character loop of strcase.ToCamel: letters and digits are kept, a
lower-case letter is raised when capNext is set, a digit sets capNext, and any
other character is dropped, setting capNext when it is a separator. -/
def camelLoop : Bool → List Char → List Char
  | _, [] => []
  | capNext, v :: rest =>
    if v.isLower then (if capNext then v.toUpper else v) :: camelLoop false rest
    else if v.isUpper then v :: camelLoop false rest
    else if v.isDigit then v :: camelLoop true rest
    else camelLoop (v == '_' || v == ' ' || v == '-' || v == '.') rest

/-- An instance of the library functions for the worked examples: ToCamel
runs the character loop from an initial capital, Plural appends an s and
Singular removes a final s. -/
def sampleLib : Lib where
  ToCamel := fun s => String.mk (camelLoop true s.data)
  Plural := fun s => s ++ "s"
  Singular := fun s => if s.data.getLast? = some 's' then String.mk s.data.dropLast else s

/-! ## Notions used to state the properties -/

/-- The text sub occurs in s as a run of consecutive characters. -/
def IsSubstring (sub s : String) : Prop :=
  ∃ a b : List Char, s.data = a ++ (sub.data ++ b)

/-- A field qualifies as primary key of objName: its description contains
SpannerPK, or its camel-cased name is Id, or it is the camel-cased objName
followed by Id. -/
def Qualifies (L : Lib) (objName : String) (f : FieldDefinition) : Prop :=
  IsSubstring "SpannerPK" f.Description ∨ L.ToCamel f.Name = "Id"
    ∨ L.ToCamel f.Name = L.ToCamel (objName ++ "Id")

/-- The name is one of the five built-in scalars. -/
def isBuiltin (n : String) : Bool :=
  n == "ID" || n == "String" || n == "Int" || n == "Float" || n == "Boolean"

/-- The fixed mapping of the built-in scalars, as the specification lists it. -/
def builtinGoName (n : String) : String :=
  if n = "ID" then "string"
  else if n = "String" then "string"
  else if n = "Int" then "int64"
  else if n = "Float" then "float64"
  else "bool"

/-- The nullable wrapper of each built-in scalar, as the specification lists it. -/
def nullWrapper (n : String) : String :=
  if n = "ID" then "spanner.NullString"
  else if n = "String" then "spanner.NullString"
  else if n = "Int" then "spanner.NullInt64"
  else if n = "Float" then "spanner.NullFloat64"
  else "spanner.NullBool"

/-- The lines of a text: the runs of characters between newlines. -/
def splitLines : List Char → List (List Char)
  | [] => [[]]
  | c :: cs =>
    if c = '\n' then [] :: splitLines cs
    else
      match splitLines cs with
      | [] => [[c]]
      | l :: ls => (c :: l) :: ls

/-- The value of a line of the form literal, zero or one space, value. -/
def lineValue (lit : String) (line : List Char) : Option String :=
  match dropLiteral lit.data line with
  | none => none
  | some rest =>
    some (String.mk (skipSpace rest))

/-- The line-anchored reading of an annotation, first matching line first:
the reading the specification gives of the two extractors. -/
def firstLineMatch (lit : String) (desc : String) : Option String :=
  (splitLines desc.data).findSome? (lineValue lit)

/-- The data-model invariant on one type reference: a list has an empty name
and a well-formed element (lists of lists included), a named reference has no
element and a non-empty name that is a built-in scalar or a key of the schema. -/
def wfType (body : Schema) : AstType → Bool
  | .ref n _ => n != "" && (isBuiltin n || (body.find n).isSome)
  | .wrap n e _ => n == "" && wfType body e

/-- The data-model invariant on a schema: every field of every type has a
well-formed type reference. -/
def SchemaWF (body : Schema) : Prop :=
  ∀ k d, body.find k = some d → ∀ f ∈ d.Fields, wfType body f.Type_ = true

/-- The field is one of the fields of a type of the schema. -/
def FieldOf (body : Schema) (f : FieldDefinition) : Prop :=
  ∃ k d, body.find k = some d ∧ f ∈ d.Fields

/-- The type reference is not a list of lists. -/
def notNestedList : AstType → Bool
  | .ref _ _ => true
  | .wrap _ e _ => e.NamedType != ""

/-- No field that qualifies as primary key of its type is list-typed. -/
def PKNamed (L : Lib) (body : Schema) : Prop :=
  ∀ k d, body.find k = some d → ∀ f ∈ d.Fields, pkCond L k f = true → f.Type_.NamedType ≠ ""

/-- The call returned a string or used up its budget: it ended neither in
the fatal error nor in a nil dereference. -/
def Graceful (o : Outcome String) : Prop :=
  o = .outOfFuel ∨ ∃ s, o = .ok s

/-! ## Example data -/

/-- Field orderRef, marked SpannerPK. -/
def orderRefField : FieldDefinition :=
  { Description := "SpannerPK", Name := "orderRef", Type_ := .ref "String" true }

/-- Field id of type ID!. -/
def idField : FieldDefinition :=
  { Description := "", Name := "id", Type_ := .ref "ID" true }

/-- Field orderId of type Int. -/
def orderIdField : FieldDefinition :=
  { Description := "", Name := "orderId", Type_ := .ref "Int" false }

/-- Field id of type Int, nullable. -/
def itemIdField : FieldDefinition :=
  { Description := "", Name := "id", Type_ := .ref "Int" false }

/-- Field total of type Int, with a column annotation. -/
def totalField : FieldDefinition :=
  { Description := "SpannerColumn: total_amount", Name := "total", Type_ := .ref "Int" false }

/-- Field amount of type Int!, with a GoType line in its own description. -/
def amountField : FieldDefinition :=
  { Description := "GoType: Money", Name := "amount", Type_ := .ref "Int" true }

/-- Field price of the custom scalar Money. -/
def priceField : FieldDefinition :=
  { Description := "", Name := "price", Type_ := .ref "Money" false }

/-- Field item, a nullable reference to the object Item. -/
def itemField : FieldDefinition :=
  { Description := "", Name := "item", Type_ := .ref "Item" false }

/-- Field tags of type list of String!. -/
def tagsField : FieldDefinition :=
  { Description := "", Name := "tags", Type_ := .wrap "" (.ref "String" true) false }

/-- Field cells of type list of list of Int. -/
def cellsField : FieldDefinition :=
  { Description := "", Name := "cells", Type_ := .wrap "" (.wrap "" (.ref "Int" false) false) false }

/-- Field ghost, naming a type Ghost that no schema below defines. -/
def ghostField : FieldDefinition :=
  { Description := "", Name := "ghost", Type_ := .ref "Ghost" false }

/-- The definition of the custom scalar Money, annotated with a GoType. -/
def moneyDef : Definition :=
  { Kind := "SCALAR", Description := "GoType: decimal.Decimal", Name := "Money", Fields := [] }

/-- The definition of the object Item, whose primary key is its field id. -/
def itemDef : Definition :=
  { Kind := "OBJECT", Description := "", Name := "Item", Fields := [itemIdField, priceField] }

/-- Field ghosts, a list of the undefined type Ghost. -/
def ghostListField : FieldDefinition :=
  { Description := "", Name := "ghosts", Type_ := .wrap "" (.ref "Ghost" true) false }

/-- The definition of the object Grid. -/
def gridDef : Definition :=
  { Kind := "OBJECT", Description := "", Name := "Grid", Fields := [cellsField] }

/-- Field ids of type list of ID!, marked SpannerPK. -/
def bagIdsField : FieldDefinition :=
  { Description := "SpannerPK", Name := "ids", Type_ := .wrap "" (.ref "ID" true) false }

/-- Field bag, a non-null reference to the object Bag. -/
def bagField : FieldDefinition :=
  { Description := "", Name := "bag", Type_ := .ref "Bag" true }

/-- The definition of the object Holder. -/
def holderDef : Definition :=
  { Kind := "OBJECT", Description := "", Name := "Holder", Fields := [bagField] }

/-- A schema in which the primary key of the object Bag is a list. -/
def bagSchema : Schema :=
  { Types :=
      [("Bag", { Kind := "OBJECT", Description := "", Name := "Bag", Fields := [bagIdsField] }),
       ("Holder", holderDef)] }

/-- The definition of the object Order. -/
def orderDef : Definition :=
  { Kind := "OBJECT", Description := "", Name := "Order",
    Fields := [orderRefField, idField, orderIdField, totalField, itemField, tagsField] }

/-- A schema with a custom scalar carrying a GoType annotation, an enum and
two objects. -/
def shopSchema : Schema :=
  { Types :=
      [("Money", moneyDef),
       ("Status", { Kind := "ENUM", Description := "", Name := "Status", Fields := [] }),
       ("Item", itemDef),
       ("Order", orderDef)] }

/-- A schema with one object whose only field is a list of lists. -/
def gridSchema : Schema :=
  { Types := [("Grid", gridDef)] }

/-- A description whose second line is a GoType annotation. -/
def twoLineDesc : String := "An order id.\nGoType: Foo"

/-- The definition of the custom scalar Stamp, whose description carries the
GoType annotation on its second line. -/
def stampDef : Definition :=
  { Kind := "SCALAR", Description := twoLineDesc, Name := "Stamp", Fields := [] }

/-- A schema with the custom scalar Stamp. -/
def stampSchema : Schema :=
  { Types := [("Stamp", stampDef)] }

/-- A description whose first line is a SpannerColumn annotation, with a
second line after it. -/
def columnThenTextDesc : String := "SpannerColumn: order_id\nThe order."

/-! ## Notions and example data for references to schema types -/

/-- The type reference is a named reference to the schema type d: its name is
non-empty, is not one of the five built-in scalar names (those denote the
built-in scalars, which the resolver maps without consulting the schema), and
d is the entry of the schema under that name. -/
def NamesType (body : Schema) (t : AstType) (d : Definition) : Prop :=
  t.NamedType ≠ "" ∧ isBuiltin t.NamedType = false ∧ body.find t.NamedType = some d

/-- Field name of type String. -/
def nameField : FieldDefinition :=
  { Description := "", Name := "name", Type_ := .ref "String" false }

/-- The definition of the object Customer, whose primary key is its field id. -/
def customerDef : Definition :=
  { Kind := "OBJECT", Description := "", Name := "Customer", Fields := [idField, nameField] }

/-- The definition of the enum Status. -/
def statusDef : Definition :=
  { Kind := "ENUM", Description := "", Name := "Status", Fields := [] }

/-- The definition of the object Note, none of whose fields is a primary key. -/
def noteDef : Definition :=
  { Kind := "OBJECT", Description := "", Name := "Note", Fields := [nameField] }

/-- The definition of the object Empty, which has no field. -/
def emptyDef : Definition :=
  { Kind := "OBJECT", Description := "", Name := "Empty", Fields := [] }

/-- A schema with the objects Customer, Item, Note and Empty, the enum Status
and the custom scalar Money. -/
def crmSchema : Schema :=
  { Types :=
      [("Customer", customerDef), ("Item", itemDef), ("Note", noteDef), ("Empty", emptyDef),
       ("Status", statusDef), ("Money", moneyDef)] }

/-- Field customer, a nullable reference to the object Customer. -/
def customerField : FieldDefinition :=
  { Description := "", Name := "customer", Type_ := .ref "Customer" false }

/-- Field buyer, a non-null reference to the object Customer. -/
def buyerField : FieldDefinition :=
  { Description := "", Name := "buyer", Type_ := .ref "Customer" true }

/-- Field items, a list of the object Item. -/
def itemsField : FieldDefinition :=
  { Description := "", Name := "items", Type_ := .wrap "" (.ref "Item" true) true }

/-- Field customerId, a reference to the object Customer whose column
annotation is customer. -/
def customerIdField : FieldDefinition :=
  { Description := "SpannerColumn: customer", Name := "customerId",
    Type_ := .ref "Customer" false }

/-- Field note, a nullable reference to the object Note. -/
def noteField : FieldDefinition :=
  { Description := "", Name := "note", Type_ := .ref "Note" false }

/-- Field status, a non-null reference to the enum Status. -/
def statusField : FieldDefinition :=
  { Description := "", Name := "status", Type_ := .ref "Status" true }

/-- Field lastStatus, a nullable reference to the enum Status. -/
def lastStatusField : FieldDefinition :=
  { Description := "", Name := "lastStatus", Type_ := .ref "Status" false }

/-- Field right of the object Left: its primary key, of type Right!. -/
def leftKeyField : FieldDefinition :=
  { Description := "SpannerPK", Name := "right", Type_ := .ref "Right" true }

/-- Field left of the object Right: its primary key, of type Left!. -/
def rightKeyField : FieldDefinition :=
  { Description := "SpannerPK", Name := "left", Type_ := .ref "Left" true }

/-- The definition of the object Left. -/
def leftDef : Definition :=
  { Kind := "OBJECT", Description := "", Name := "Left", Fields := [leftKeyField] }

/-- The definition of the object Right. -/
def rightDef : Definition :=
  { Kind := "OBJECT", Description := "", Name := "Right", Fields := [rightKeyField] }

/-- A schema with a primary-key cycle: the key of Left is a Right and the key
of Right is a Left. -/
def cycleSchema : Schema :=
  { Types := [("Left", leftDef), ("Right", rightDef)] }

/-- Field peer, a nullable reference to the object Left of the cycle. -/
def peerField : FieldDefinition :=
  { Description := "", Name := "peer", Type_ := .ref "Left" false }

/-- Field firstItem, a non-null reference to the object Item. -/
def firstItemField : FieldDefinition :=
  { Description := "", Name := "firstItem", Type_ := .ref "Item" true }

/-! ## Lemmas on the string primitives -/

theorem startsWithList_iff (p s : List Char) :
    startsWithList p s = true ↔ ∃ b, s = p ++ b := by
  induction p generalizing s with
  | nil => simp [startsWithList]
  | cons x xs ih =>
    cases s with
    | nil => simp [startsWithList]
    | cons c cs =>
      simp only [startsWithList, Bool.and_eq_true, beq_iff_eq, ih, List.cons_append,
        List.cons.injEq]
      constructor
      · rintro ⟨rfl, b, rfl⟩
        exact ⟨b, rfl, rfl⟩
      · rintro ⟨b, rfl, rfl⟩
        exact ⟨rfl, b, rfl⟩

theorem containsList_iff (s sub : List Char) :
    containsList s sub = true ↔ ∃ a b, s = a ++ (sub ++ b) := by
  induction s with
  | nil =>
    simp only [containsList, startsWithList_iff]
    constructor
    · rintro ⟨b, hb⟩
      exact ⟨[], b, by simpa using hb⟩
    · rintro ⟨a, b, hab⟩
      have h1 : a = [] ∧ sub ++ b = [] := by simpa using hab.symm
      exact ⟨b, h1.2.symm⟩
  | cons c cs ih =>
    simp only [containsList, Bool.or_eq_true, startsWithList_iff, ih]
    constructor
    · rintro (⟨b, hb⟩ | ⟨a, b, hab⟩)
      · exact ⟨[], b, by simpa using hb⟩
      · exact ⟨c :: a, b, by simp [hab]⟩
    · rintro ⟨a, b, hab⟩
      cases a with
      | nil => exact Or.inl ⟨b, by simpa using hab⟩
      | cons x xs =>
        simp only [List.cons_append, List.cons.injEq] at hab
        exact Or.inr ⟨xs, b, hab.2⟩

theorem strContains_iff (s sub : String) :
    strContains s sub = true ↔ IsSubstring sub s := by
  simp [strContains, IsSubstring, containsList_iff]

theorem pkCond_iff (L : Lib) (objName : String) (f : FieldDefinition) :
    pkCond L objName f = true ↔ Qualifies L objName f := by
  simp [pkCond, Qualifies, strContains_iff, or_assoc]

theorem pkCond_false_iff (L : Lib) (objName : String) (f : FieldDefinition) :
    pkCond L objName f = false ↔ ¬ Qualifies L objName f := by
  rw [← pkCond_iff, Bool.not_eq_true]

/-! ## The primary-key search -/

theorem foundPK_some (L : Lib) (objName : String) (fields : List FieldDefinition)
    (f : FieldDefinition) (h : foundPK L objName fields = some f) :
    ∃ pre post, fields = pre ++ f :: post ∧ pkCond L objName f = true
      ∧ ∀ g ∈ pre, pkCond L objName g = false := by
  induction fields with
  | nil => simp [foundPK] at h
  | cons x xs ih =>
    unfold foundPK at h
    by_cases hx : pkCond L objName x = true
    · rw [if_pos hx] at h
      cases h
      exact ⟨[], xs, rfl, hx, by simp⟩
    · rw [if_neg hx] at h
      obtain ⟨pre, post, hsplit, hq, hpre⟩ := ih h
      refine ⟨x :: pre, post, by simp [hsplit], hq, ?_⟩
      intro g hg
      rcases List.mem_cons.mp hg with rfl | hg
      · simpa using hx
      · exact hpre g hg

theorem foundPK_none (L : Lib) (objName : String) (fields : List FieldDefinition) :
    foundPK L objName fields = none ↔ ∀ g ∈ fields, pkCond L objName g = false := by
  induction fields with
  | nil => simp [foundPK]
  | cons x xs ih =>
    unfold foundPK
    by_cases hx : pkCond L objName x = true
    · simp [hx]
    · simp [hx, ih]

theorem foundPK_mem (L : Lib) (objName : String) (fields : List FieldDefinition)
    (f : FieldDefinition) (h : foundPK L objName fields = some f) :
    f ∈ fields ∧ pkCond L objName f = true := by
  obtain ⟨pre, post, hsplit, hq, _⟩ := foundPK_some L objName fields f h
  exact ⟨by simp [hsplit], hq⟩

/-- Claim C1. foundPK returns the first field, in declaration order, that
qualifies as primary key: the returned field qualifies and no field before it
does, and the result is none exactly when no field qualifies. For the object
Order with fields orderRef (marked SpannerPK), id and orderId the result is
orderRef, whatever the camel-casing function is. -/
theorem foundPK_first_qualifying :
    (∀ (L : Lib) (objName : String) (fields : List FieldDefinition),
      (∀ f, foundPK L objName fields = some f →
        ∃ pre post, fields = pre ++ f :: post ∧ Qualifies L objName f
          ∧ ∀ g ∈ pre, ¬ Qualifies L objName g)
      ∧ (foundPK L objName fields = none ↔ ∀ g ∈ fields, ¬ Qualifies L objName g))
    ∧ (∀ L : Lib, foundPK L "Order" [orderRefField, idField, orderIdField]
        = some orderRefField) := by
  refine ⟨fun L objName fields => ⟨?_, ?_⟩, ?_⟩
  · intro f h
    obtain ⟨pre, post, hsplit, hq, hpre⟩ := foundPK_some L objName fields f h
    exact ⟨pre, post, hsplit, (pkCond_iff L objName f).mp hq,
      fun g hg => (pkCond_false_iff L objName g).mp (hpre g hg)⟩
  · rw [foundPK_none]
    exact forall₂_congr fun g _ => pkCond_false_iff L objName g
  · intro L
    have h : strContains orderRefField.Description "SpannerPK" = true := by decide
    simp [foundPK, pkCond, h]

/-! ## Base types -/

theorem isBuiltin_iff (n : String) :
    isBuiltin n = true ↔
      n = "ID" ∨ n = "String" ∨ n = "Int" ∨ n = "Float" ∨ n = "Boolean" := by
  simp [isBuiltin, or_assoc]

theorem isBuiltin_false_iff (n : String) :
    isBuiltin n = false ↔
      n ≠ "ID" ∧ n ≠ "String" ∧ n ≠ "Int" ∧ n ≠ "Float" ∧ n ≠ "Boolean" := by
  rw [← Bool.not_eq_true, isBuiltin_iff]
  simp only [not_or, ne_eq]

theorem goSingleType_builtin (L : Lib) (n : Nat) (t : AstType) (body : Schema)
    (replace : Bool) (h : isBuiltin t.NamedType = true) :
    goSingleType L (n + 1) t body replace = .ok (builtinGoName t.NamedType) := by
  rcases (isBuiltin_iff _).mp h with h | h | h | h | h <;>
    simp [goSingleType, builtinGoName, h]

theorem goSingleType_custom (L : Lib) (n : Nat) (t : AstType) (body : Schema)
    (replace : Bool) (h : isBuiltin t.NamedType = false) :
    goSingleType L (n + 1) t body replace =
      match body.find t.NamedType with
      | some d =>
        match gotypeRe d.Description with
        | some m => .ok m
        | none =>
          if !replace then .ok t.NamedType
          else
            match foundPK L t.NamedType d.Fields with
            | some f => goSingleType L n f.Type_ body replace
            | none => .ok "string"
      | none => .fatal t.NamedType := by
  obtain ⟨h1, h2, h3, h4, h5⟩ := (isBuiltin_false_iff _).mp h
  simp [goSingleType, h1, h2, h3, h4, h5]

/-- Claim C3. For a field whose type is a built-in scalar, GoType returns the
nullability marker (empty when nonNull, a star otherwise) followed by the
fixed mapping of the scalar; for a list field whose element is a built-in
scalar it returns the brackets followed by the marker and mapping of the
element. This holds for every schema and both flag values. -/
theorem GoType_builtin_scalar (L : Lib) (n : Nat) (f : FieldDefinition) (body : Schema)
    (replace : Bool) :
    (isBuiltin f.Type_.NamedType = true →
      GoType L (n + 1) f body replace
        = .ok ((if f.Type_.NonNull then "" else "*") ++ builtinGoName f.Type_.NamedType))
    ∧ (∀ e, f.Type_.NamedType = "" → f.Type_.Elem = some e → isBuiltin e.NamedType = true →
      GoType L (n + 1) f body replace
        = .ok ("[]" ++ ((if e.NonNull then "" else "*") ++ builtinGoName e.NamedType))) := by
  constructor
  · intro h
    have hg := goSingleType_builtin L n f.Type_ body replace h
    have h5 := (isBuiltin_iff _).mp h
    simp [GoType, h5, hg, Outcome.prepend, addPtPrefixIfNull]
  · intro e h0 he hb
    have hg := goSingleType_builtin L n e body replace hb
    simp [GoType, h0, he, hg, Outcome.prepend, addPtPrefixIfNull, String.append_assoc]

/-- Witness of claim C3: a nullable Int field and a list of non-null String. -/
theorem GoType_builtin_scalar_witness :
    GoType sampleLib 1 orderIdField shopSchema true = .ok "*int64"
      ∧ GoType sampleLib 1 tagsField shopSchema false = .ok "[]string" :=
  ⟨(GoType_builtin_scalar sampleLib 0 orderIdField shopSchema true).1 (by decide),
    (GoType_builtin_scalar sampleLib 0 tagsField shopSchema false).2 (.ref "String" true)
      (by decide) (by decide) (by decide)⟩

theorem builtinGoName_table :
    builtinGoName "ID" = "string" ∧ builtinGoName "String" = "string"
      ∧ builtinGoName "Int" = "int64" ∧ builtinGoName "Float" = "float64"
      ∧ builtinGoName "Boolean" = "bool" := by
  decide

/-! ## Persisted types -/

/-- Claim C4. For a nullable field whose named type is a built-in scalar,
SpannerGoType returns the dedicated wrapper of that scalar (NullString for ID
and String, NullInt64 for Int, NullFloat64 for Float, NullBool for Boolean),
for every schema and both flag values, and the string returned does not begin
with a star. -/
theorem SpannerGoType_nullable_builtin (L : Lib) (n : Nat) (f : FieldDefinition)
    (body : Schema) (replace : Bool)
    (hn : f.Type_.NonNull = false) (hb : isBuiltin f.Type_.NamedType = true) :
    SpannerGoType L (n + 1) f body replace = .ok (nullWrapper f.Type_.NamedType)
      ∧ ∀ s, SpannerGoType L (n + 1) f body replace = .ok s → s.data.head? ≠ some '*' := by
  have hres : SpannerGoType L (n + 1) f body replace = .ok (nullWrapper f.Type_.NamedType) := by
    rcases (isBuiltin_iff _).mp hb with h | h | h | h | h <;>
      simp [SpannerGoType, spannerGoSingleType, nullWrapper, h, hn]
  refine ⟨hres, fun s hs => ?_⟩
  rw [hres] at hs
  cases hs
  rcases (isBuiltin_iff _).mp hb with h | h | h | h | h <;>
    simp [nullWrapper, h]

/-- Witness of claim C4: the nullable Int field orderId. -/
theorem SpannerGoType_nullable_builtin_witness :
    orderIdField.Type_.NonNull = false ∧ isBuiltin orderIdField.Type_.NamedType = true
      ∧ SpannerGoType sampleLib 1 orderIdField shopSchema true = .ok "spanner.NullInt64" :=
  ⟨by decide, by decide,
    (SpannerGoType_nullable_builtin sampleLib 0 orderIdField shopSchema true
      (by decide) (by decide)).1⟩

theorem nullWrapper_table :
    nullWrapper "ID" = "spanner.NullString" ∧ nullWrapper "String" = "spanner.NullString"
      ∧ nullWrapper "Int" = "spanner.NullInt64" ∧ nullWrapper "Float" = "spanner.NullFloat64"
      ∧ nullWrapper "Boolean" = "spanner.NullBool" := by
  decide

/-- Claim C5, the code at the failing input. The field item is a nullable
reference to the object Item, whose primary key is the nullable Int field id.
With the replace flag set, SpannerGoType of item is the starred object name,
while SpannerGoType of the primary-key field itself is the NullInt64 wrapper. -/
theorem SpannerGoType_nullable_object_not_pk_type :
    shopSchema.find itemField.Type_.NamedType = some itemDef
      ∧ itemDef.Kind = "OBJECT"
      ∧ itemField.Type_.NonNull = false
      ∧ foundPK sampleLib "Item" itemDef.Fields = some itemIdField
      ∧ SpannerGoType sampleLib 5 itemField shopSchema true = .ok "*Item"
      ∧ SpannerGoType sampleLib 5 itemIdField shopSchema true = .ok "spanner.NullInt64" := by
  decide

/-! ## Column names -/

/-- Claim C6, amended. For a field that is not object-typed,
ConvertObjectFieldName returns the field's own name, whether or not its
description carries a SpannerColumn annotation. -/
theorem ConvertObjectFieldName_non_object (L : Lib) (f : FieldDefinition) (body : Schema)
    (h : isObject f body = .ok false) :
    ConvertObjectFieldName L f body = .ok f.Name := by
  simp [ConvertObjectFieldName, h]

/-- Witness of the amended claim C6: the list field tags. -/
theorem ConvertObjectFieldName_non_object_witness :
    isObject tagsField shopSchema = .ok false
      ∧ ConvertObjectFieldName sampleLib tagsField shopSchema = .ok "tags" :=
  ⟨by decide, ConvertObjectFieldName_non_object sampleLib tagsField shopSchema (by decide)⟩

/-- Counterexample to claim C6 as stated: the field total is not object-typed
and its description carries the column annotation total_amount, which
convertName returns, yet ConvertObjectFieldName returns the name total. -/
theorem ConvertObjectFieldName_drops_annotation :
    isObject totalField shopSchema = .ok false
      ∧ spanColumnRe totalField.Description = some "total_amount"
      ∧ convertName totalField = "total_amount"
      ∧ ConvertObjectFieldName sampleLib totalField shopSchema = .ok "total" := by
  decide

/-! ## Field-level annotations -/

/-- Claim C8, amended. GoType does not read the field's own description: the
result is the same whatever that description is, so a GoType line in a field
description has no effect; only the description of the schema type the field
names can override the base type. -/
theorem GoType_ignores_field_description (L : Lib) (n : Nat) (f : FieldDefinition)
    (body : Schema) (replace : Bool) (desc : String) :
    GoType L n { f with Description := desc } body replace = GoType L n f body replace := by
  simp [GoType]

/-- Counterexample to claim C8 as stated: the description of the field amount
carries the GoType value Money, and GoType still renders the Int! field as
int64 under both flag values. -/
theorem GoType_field_annotation_counterexample :
    gotypeRe amountField.Description = some "Money"
      ∧ GoType sampleLib 3 amountField shopSchema false = .ok "int64"
      ∧ GoType sampleLib 3 amountField shopSchema true = .ok "int64" := by
  decide

/-! ## Unknown types -/

/-- Claim C9. If the named type of a field, or of the element of a list field,
is non-empty, is not a built-in scalar and is not a key of the schema, then
GoType and SpannerGoType both end in the fatal error, which reports that name,
for every schema and both flag values; no string is returned. The budgets are
the calls needed to reach goSingleType: one from GoType, two from
SpannerGoType. -/
theorem unknown_type_fatal (L : Lib) (n : Nat) (f : FieldDefinition) (body : Schema)
    (replace : Bool) :
    (f.Type_.NamedType ≠ "" → isBuiltin f.Type_.NamedType = false →
      body.find f.Type_.NamedType = none →
        GoType L (n + 1) f body replace = .fatal f.Type_.NamedType
          ∧ SpannerGoType L (n + 2) f body replace = .fatal f.Type_.NamedType)
    ∧ (∀ e, f.Type_.NamedType = "" → f.Type_.Elem = some e → e.NamedType ≠ "" →
      isBuiltin e.NamedType = false → body.find e.NamedType = none →
        GoType L (n + 1) f body replace = .fatal e.NamedType
          ∧ SpannerGoType L (n + 2) f body replace = .fatal e.NamedType) := by
  constructor
  · intro h0 hb hk
    have hg : ∀ m, goSingleType L (m + 1) f.Type_ body replace = .fatal f.Type_.NamedType := by
      intro m
      rw [goSingleType_custom L m f.Type_ body replace hb, hk]
    obtain ⟨h1, h2, h3, h4, h5⟩ := (isBuiltin_false_iff _).mp hb
    constructor
    · simp [GoType, h0, h1, h2, h3, h4, h5, hg, Outcome.prepend]
    · simp [SpannerGoType, spannerGoSingleType, h0, h1, h2, h3, h4, h5, hk, hg n,
        Outcome.prepend]
  · intro e h0 he hne hb hk
    have hg : ∀ m, goSingleType L (m + 1) e body replace = .fatal e.NamedType := by
      intro m
      rw [goSingleType_custom L m e body replace hb, hk]
    constructor
    · simp [GoType, h0, he, hg, Outcome.prepend]
    · simp [SpannerGoType, spannerGoSingleType, h0, he, hg n, Outcome.prepend]

/-- Witness of claim C9: the field ghost names a type the example schema does
not define, and a list of that type fails the same way. -/
theorem unknown_type_fatal_witness :
    GoType sampleLib 1 ghostField shopSchema true = .fatal "Ghost"
      ∧ SpannerGoType sampleLib 2 ghostField shopSchema true = .fatal "Ghost"
      ∧ GoType sampleLib 1 ghostListField shopSchema false = .fatal "Ghost"
      ∧ SpannerGoType sampleLib 2 ghostListField shopSchema false = .fatal "Ghost" :=
  ⟨((unknown_type_fatal sampleLib 0 ghostField shopSchema true).1
      (by decide) (by decide) (by decide)).1,
    ((unknown_type_fatal sampleLib 0 ghostField shopSchema true).1
      (by decide) (by decide) (by decide)).2,
    ((unknown_type_fatal sampleLib 0 ghostListField shopSchema false).2 (.ref "Ghost" true)
      (by decide) (by decide) (by decide) (by decide) (by decide)).1,
    ((unknown_type_fatal sampleLib 0 ghostListField shopSchema false).2 (.ref "Ghost" true)
      (by decide) (by decide) (by decide) (by decide) (by decide)).2⟩

/-! ## Annotation extraction -/

theorem dropLiteral_iff (p s r : List Char) :
    dropLiteral p s = some r ↔ s = p ++ r := by
  induction p generalizing s with
  | nil =>
    simp only [dropLiteral, Option.some.injEq, List.nil_append]
  | cons x xs ih =>
    cases s with
    | nil => simp [dropLiteral]
    | cons c cs =>
      by_cases hxc : x = c
      · subst hxc
        simp [dropLiteral, ih]
      · have hcx : ¬ c = x := fun h => hxc h.symm
        simp [dropLiteral, hxc, hcx]

theorem skipSpace_eq_iff (rest v : List Char) :
    skipSpace rest = v ↔ rest = ' ' :: v ∨ (rest = v ∧ v.head? ≠ some ' ') := by
  cases rest with
  | nil =>
    simp only [skipSpace]
    constructor
    · rintro rfl
      exact Or.inr ⟨rfl, by simp⟩
    · rintro (h | ⟨h, _⟩)
      · cases h
      · exact h
  | cons c tl =>
    by_cases hc : c = ' '
    · subst hc
      simp only [skipSpace, if_true, List.cons.injEq, true_and]
      constructor
      · intro h
        exact Or.inl h
      · rintro (h | ⟨h, hv⟩)
        · exact h
        · subst h
          simp at hv
    · simp only [skipSpace, if_neg hc, List.cons.injEq, hc, false_and, false_or]
      constructor
      · rintro rfl
        exact ⟨rfl, by simpa using hc⟩
      · rintro ⟨h, _⟩
        exact h

theorem findSubmatch1_iff (lit desc v : String) :
    findSubmatch1 lit desc = some v ↔
      '\n' ∉ v.data ∧ (desc = lit ++ " " ++ v ∨ (desc = lit ++ v ∧ v.data.head? ≠ some ' ')) := by
  have hstr : ∀ a b : String, a = b ↔ a.data = b.data := fun a b => String.ext_iff
  have hsp : (" " : String).data = [' '] := rfl
  simp only [hstr desc, String.data_append, hsp, List.append_assoc, List.singleton_append]
  unfold findSubmatch1
  cases hd : dropLiteral lit.data desc.data with
  | none =>
    refine ⟨fun h => (by cases h), ?_⟩
    rintro ⟨_, h | ⟨h, _⟩⟩
    · have := (dropLiteral_iff lit.data desc.data (' ' :: v.data)).mpr h
      rw [hd] at this
      cases this
    · have := (dropLiteral_iff lit.data desc.data v.data).mpr h
      rw [hd] at this
      cases this
  | some rest =>
    have hrest := (dropLiteral_iff _ _ _).mp hd
    simp only [hrest, List.append_cancel_left_eq]
    by_cases hnl : '\n' ∈ skipSpace rest
    · have hc : (skipSpace rest).contains '\n' = true := by simpa using hnl
      simp only [hc, if_true]
      refine ⟨fun h => (by cases h), ?_⟩
      rintro ⟨hv, hcases⟩
      have : skipSpace rest = v.data := (skipSpace_eq_iff rest v.data).mpr hcases
      exact absurd (this ▸ hnl) hv
    · have hc : (skipSpace rest).contains '\n' = false := by simpa using hnl
      simp only [hc, Bool.false_eq_true, if_false, Option.some.injEq]
      rw [← skipSpace_eq_iff]
      constructor
      · rintro rfl
        exact ⟨hnl, rfl⟩
      · rintro ⟨_, h⟩
        exact String.ext h

theorem splitLines_of_no_newline (s : List Char) (h : '\n' ∉ s) : splitLines s = [s] := by
  induction s with
  | nil => rfl
  | cons c cs ih =>
    have hc : ¬ c = '\n' := fun e => h (by simp [e])
    have hcs : '\n' ∉ cs := fun e => h (List.mem_cons_of_mem _ e)
    simp [splitLines, hc, ih hcs]

theorem skipSpace_subset (rest : List Char) (c : Char) (h : c ∈ skipSpace rest) : c ∈ rest := by
  cases rest with
  | nil => simp [skipSpace] at h
  | cons x tl =>
    by_cases hx : x = ' '
    · simp only [skipSpace, if_pos hx] at h
      exact List.mem_cons_of_mem _ h
    · simpa [skipSpace, hx] using h

theorem findSubmatch1_eq_firstLineMatch (lit desc : String) (h : '\n' ∉ desc.data) :
    findSubmatch1 lit desc = firstLineMatch lit desc := by
  unfold findSubmatch1 firstLineMatch
  rw [splitLines_of_no_newline desc.data h]
  simp only [List.findSome?, lineValue]
  cases hd : dropLiteral lit.data desc.data with
  | none => rfl
  | some rest =>
    have hrest := (dropLiteral_iff _ _ _).mp hd
    have hnl : '\n' ∉ skipSpace rest := by
      intro hmem
      apply h
      rw [hrest]
      exact List.mem_append_right _ (skipSpace_subset rest _ hmem)
    simp [hnl]

/-- Claim C7, amended. Both extractors are anchored to the whole description,
not to its lines. The GoType value v is extracted exactly when the entire
description is the text GoType: followed by one space and v, or followed
directly by a v that does not begin with a space, where v holds no newline;
the same holds for SpannerColumn. On a description without a newline each
extractor agrees with the line-anchored first-match reading. -/
theorem annotation_anchored_to_whole_description :
    (∀ desc v : String, gotypeRe desc = some v ↔
        '\n' ∉ v.data ∧ (desc = "GoType:" ++ " " ++ v
          ∨ (desc = "GoType:" ++ v ∧ v.data.head? ≠ some ' ')))
    ∧ (∀ desc v : String, spanColumnRe desc = some v ↔
        '\n' ∉ v.data ∧ (desc = "SpannerColumn:" ++ " " ++ v
          ∨ (desc = "SpannerColumn:" ++ v ∧ v.data.head? ≠ some ' ')))
    ∧ (∀ desc : String, '\n' ∉ desc.data →
        gotypeRe desc = firstLineMatch "GoType:" desc
          ∧ spanColumnRe desc = firstLineMatch "SpannerColumn:" desc) :=
  ⟨fun desc v => findSubmatch1_iff "GoType:" desc v,
    fun desc v => findSubmatch1_iff "SpannerColumn:" desc v,
    fun desc h => ⟨findSubmatch1_eq_firstLineMatch "GoType:" desc h,
      findSubmatch1_eq_firstLineMatch "SpannerColumn:" desc h⟩⟩

/-- Counterexample to claim C7 as stated: in a two-line description whose
second line is the GoType annotation the line-anchored reading finds Foo and
gotypeRe finds nothing; in a description whose first line is the SpannerColumn
annotation, followed by a second line, the line-anchored reading finds
order_id and spanColumnRe finds nothing. -/
theorem annotation_not_line_anchored :
    firstLineMatch "GoType:" twoLineDesc = some "Foo"
      ∧ gotypeRe twoLineDesc = none
      ∧ firstLineMatch "SpannerColumn:" columnThenTextDesc = some "order_id"
      ∧ spanColumnRe columnThenTextDesc = none := by
  decide

/-! ## Type-level override -/

/-- Claim C2, amended. For a type reference naming a custom type of the
schema (its name is a key of the schema and not one of the five built-in
scalar names), if the description of that type is, as a whole, the text
GoType: followed by one space and foo, or followed directly by a foo that
does not begin with a space, where foo holds no newline, then goSingleType
returns exactly foo, for both values of the replace flag, whatever the kind
and the fields of that type are. -/
theorem goSingleType_override (L : Lib) (n : Nat) (t : AstType) (body : Schema)
    (replace : Bool) (d : Definition) (foo : String)
    (hb : isBuiltin t.NamedType = false)
    (hd : body.find t.NamedType = some d)
    (hnl : '\n' ∉ foo.data)
    (hdesc : d.Description = "GoType:" ++ " " ++ foo
      ∨ (d.Description = "GoType:" ++ foo ∧ foo.data.head? ≠ some ' ')) :
    goSingleType L (n + 1) t body replace = .ok foo := by
  have ho : gotypeRe d.Description = some foo :=
    (findSubmatch1_iff "GoType:" d.Description foo).mpr ⟨hnl, hdesc⟩
  rw [goSingleType_custom L n t body replace hb, hd]
  simp only [ho]

/-- Witness of the amended claim C2: the custom scalar Money of the example
schema, whose whole description is the annotation, resolves to it. -/
theorem goSingleType_override_witness :
    isBuiltin (AstType.ref "Money" false).NamedType = false
      ∧ shopSchema.find (AstType.ref "Money" false).NamedType = some moneyDef
      ∧ moneyDef.Description = "GoType:" ++ " " ++ "decimal.Decimal"
      ∧ goSingleType sampleLib (0 + 1) (.ref "Money" false) shopSchema true
          = .ok "decimal.Decimal" :=
  ⟨by decide, by decide, by decide,
    goSingleType_override sampleLib 0 (.ref "Money" false) shopSchema true moneyDef
      "decimal.Decimal" (by decide) (by decide) (by decide) (Or.inl (by decide))⟩

/-- Counterexample to claim C2 as stated: the description of the custom
scalar Stamp carries the line GoType: Foo as its second line, which the
line-anchored reading extracts, and a reference to Stamp resolves to the bare
name Stamp with the replace flag unset and to string with it set, not to
Foo. -/
theorem goSingleType_override_second_line_counterexample :
    stampSchema.find (AstType.ref "Stamp" true).NamedType = some stampDef
      ∧ isBuiltin (AstType.ref "Stamp" true).NamedType = false
      ∧ firstLineMatch "GoType:" stampDef.Description = some "Foo"
      ∧ goSingleType sampleLib 4 (.ref "Stamp" true) stampSchema false = .ok "Stamp"
      ∧ goSingleType sampleLib 4 (.ref "Stamp" true) stampSchema true = .ok "string" := by
  decide

/-! ## Which outcomes are fatal -/

theorem find_mem (body : Schema) (k : String) (d : Definition)
    (h : body.find k = some d) : (k, d) ∈ body.Types := by
  unfold Schema.find at h
  generalize body.Types = l at h
  induction l with
  | nil => simp [List.lookup] at h
  | cons p ps ih =>
    obtain ⟨k0, d0⟩ := p
    by_cases hk : k = k0
    · subst hk
      simp only [List.lookup, beq_self_eq_true, Option.some.injEq] at h
      subst h
      exact List.mem_cons_self _ _
    · have hb : (k == k0) = false := by simpa using hk
      simp only [List.lookup, hb] at h
      exact List.mem_cons_of_mem _ (ih h)

theorem schemaWF_of_entries (body : Schema)
    (h : ∀ p ∈ body.Types, ∀ f ∈ p.2.Fields, wfType body f.Type_ = true) : SchemaWF body :=
  fun k d hd f hf => h (k, d) (find_mem body k d hd) f hf

theorem pkNamed_of_entries (L : Lib) (body : Schema)
    (h : ∀ p ∈ body.Types, ∀ f ∈ p.2.Fields, pkCond L p.1 f = true → f.Type_.NamedType ≠ "") :
    PKNamed L body :=
  fun k d hd f hf => h (k, d) (find_mem body k d hd) f hf

theorem wfType_named (body : Schema) (t : AstType) (h : wfType body t = true)
    (hne : t.NamedType ≠ "") :
    isBuiltin t.NamedType = true ∨ ∃ d, body.find t.NamedType = some d := by
  cases t with
  | ref n b =>
    simp only [wfType, Bool.and_eq_true, Bool.or_eq_true, Option.isSome_iff_exists] at h
    exact h.2
  | wrap n e b =>
    simp only [wfType, Bool.and_eq_true, beq_iff_eq] at h
    exact absurd h.1 hne

theorem wfType_list (body : Schema) (t : AstType) (h : wfType body t = true)
    (h0 : t.NamedType = "") : ∃ e, t.Elem = some e ∧ wfType body e = true := by
  cases t with
  | ref n b =>
    simp only [AstType.NamedType] at h0
    simp [wfType, h0] at h
  | wrap n e b =>
    simp only [wfType, Bool.and_eq_true] at h
    exact ⟨e, rfl, h.2⟩

theorem notNestedList_elem (t e : AstType) (h : notNestedList t = true)
    (he : t.Elem = some e) : e.NamedType ≠ "" := by
  cases t with
  | ref n b => simp [AstType.Elem] at he
  | wrap n x b =>
    simp only [AstType.Elem, Option.some.injEq] at he
    subst he
    simpa [notNestedList] using h

theorem graceful_prepend (p : String) (o : Outcome String) (h : Graceful o) :
    Graceful (o.prepend p) := by
  rcases h with h | ⟨s, h⟩
  · exact Or.inl (by rw [h]; rfl)
  · exact Or.inr ⟨p ++ s, by rw [h]; rfl⟩

theorem goSingleType_graceful (L : Lib) (body : Schema) (replace : Bool)
    (hwf : SchemaWF body) (hpk : PKNamed L body) :
    ∀ (n : Nat) (t : AstType), wfType body t = true → t.NamedType ≠ "" →
      Graceful (goSingleType L n t body replace) := by
  intro n
  induction n with
  | zero =>
    intro t _ _
    exact Or.inl rfl
  | succ n ih =>
    intro t ht hne
    cases hb : isBuiltin t.NamedType with
    | true => exact Or.inr ⟨_, goSingleType_builtin L n t body replace hb⟩
    | false =>
      rw [goSingleType_custom L n t body replace hb]
      rcases wfType_named body t ht hne with h | ⟨d, hd⟩
      · rw [hb] at h
        cases h
      · simp only [hd]
        cases hre : gotypeRe d.Description with
        | some m => exact Or.inr ⟨m, rfl⟩
        | none =>
          cases replace with
          | false => exact Or.inr ⟨t.NamedType, rfl⟩
          | true =>
            cases hpkf : foundPK L t.NamedType d.Fields with
            | none => exact Or.inr ⟨"string", rfl⟩
            | some g =>
              obtain ⟨hmem, hq⟩ := foundPK_mem L t.NamedType d.Fields g hpkf
              exact ih g.Type_ (hwf _ d hd g hmem) (hpk _ d hd g hmem hq)

theorem GoType_graceful (L : Lib) (n : Nat) (f : FieldDefinition) (body : Schema)
    (replace : Bool) (hwf : SchemaWF body) (hpk : PKNamed L body)
    (hft : wfType body f.Type_ = true) (hflat : notNestedList f.Type_ = true) :
    Graceful (GoType L n f body replace) := by
  have hG := goSingleType_graceful L body replace hwf hpk n
  unfold GoType
  split_ifs with h1 h2
  · refine graceful_prepend _ _ (hG f.Type_ hft ?_)
    rcases h1 with h | h | h | h | h <;> simp [h]
  · obtain ⟨e, he, hwe⟩ := wfType_list body f.Type_ hft h2
    rw [he]
    exact graceful_prepend _ _ (hG e hwe (notNestedList_elem f.Type_ e hflat he))
  · exact graceful_prepend _ _ (hG f.Type_ hft h2)

theorem spannerGoSingleType_builtin (L : Lib) (n : Nat) (f : FieldDefinition)
    (body : Schema) (replace : Bool) (h : isBuiltin f.Type_.NamedType = true) :
    spannerGoSingleType L (n + 1) f body replace =
      if f.Type_.NonNull then goSingleType L n f.Type_ body replace
      else .ok (nullWrapper f.Type_.NamedType) := by
  rcases (isBuiltin_iff _).mp h with h | h | h | h | h <;>
    simp [spannerGoSingleType, nullWrapper, h]

theorem spannerGoSingleType_list (L : Lib) (n : Nat) (f : FieldDefinition)
    (body : Schema) (replace : Bool) (h : f.Type_.NamedType = "") :
    spannerGoSingleType L (n + 1) f body replace =
      match f.Type_.Elem with
      | none => .nilDeref
      | some e => (goSingleType L n e body replace).prepend ("[]" ++ addPtPrefixIfNull e) := by
  simp [spannerGoSingleType, h]

theorem spannerGoSingleType_custom (L : Lib) (n : Nat) (f : FieldDefinition)
    (body : Schema) (replace : Bool) (hb : isBuiltin f.Type_.NamedType = false)
    (h0 : f.Type_.NamedType ≠ "") :
    spannerGoSingleType L (n + 1) f body replace =
      match body.find f.Type_.NamedType with
      | some d =>
        if d.Kind = "ENUM" then
          if f.Type_.NonNull then
            (goSingleType L n f.Type_ body replace).prepend (addPtPrefixIfNull f.Type_)
          else .ok "spanner.NullString"
        else if d.Kind = "OBJECT" then
          if f.Type_.NonNull || !replace then
            (goSingleType L n f.Type_ body replace).prepend (addPtPrefixIfNull f.Type_)
          else
            match foundPK L f.Type_.NamedType d.Fields with
            | some _ => spannerGoSingleType L n f body false
            | none => .ok "spanner.NullString"
        else
          (goSingleType L n f.Type_ body replace).prepend (addPtPrefixIfNull f.Type_)
      | none =>
        (goSingleType L n f.Type_ body replace).prepend (addPtPrefixIfNull f.Type_) := by
  obtain ⟨h1, h2, h3, h4, h5⟩ := (isBuiltin_false_iff _).mp hb
  simp only [spannerGoSingleType, h1, h2, h3, h4, h5, h0, or_self, if_false]

theorem spannerGoSingleType_graceful (L : Lib) (f : FieldDefinition) (body : Schema)
    (hwf : SchemaWF body) (hpk : PKNamed L body)
    (hft : wfType body f.Type_ = true) (hflat : notNestedList f.Type_ = true) :
    ∀ (n : Nat) (replace : Bool), Graceful (spannerGoSingleType L n f body replace) := by
  intro n
  induction n with
  | zero =>
    intro replace
    exact Or.inl rfl
  | succ n ih =>
    intro replace
    have hG := goSingleType_graceful L body replace hwf hpk n
    have hok : ∀ s : String, Graceful (.ok s) := fun s => Or.inr ⟨s, rfl⟩
    cases hb : isBuiltin f.Type_.NamedType with
    | true =>
      have hne : f.Type_.NamedType ≠ "" := by
        rcases (isBuiltin_iff _).mp hb with h | h | h | h | h <;> simp [h]
      rw [spannerGoSingleType_builtin L n f body replace hb]
      split_ifs
      · exact hG f.Type_ hft hne
      · exact hok _
    | false =>
      by_cases h0 : f.Type_.NamedType = ""
      · obtain ⟨e, he, hwe⟩ := wfType_list body f.Type_ hft h0
        rw [spannerGoSingleType_list L n f body replace h0]
        simp only [he]
        exact graceful_prepend _ _ (hG e hwe (notNestedList_elem f.Type_ e hflat he))
      · have hg := graceful_prepend (addPtPrefixIfNull f.Type_) _ (hG f.Type_ hft h0)
        rw [spannerGoSingleType_custom L n f body replace hb h0]
        cases body.find f.Type_.NamedType with
        | none => exact hg
        | some d =>
          simp only
          split_ifs
          all_goals first
            | exact hok _
            | exact hg
            | skip
          cases foundPK L f.Type_.NamedType d.Fields with
          | none => exact hok _
          | some g => exact ih false

/-- Claim C10, amended. In a schema that satisfies the data-model invariants
and in which no field qualifying as primary key is list-typed, for every field
of the schema whose type is not a list of lists, and for both flag values: if
GoType, respectively SpannerGoType, ends within its call budget, it returns a
string; it does not end in the fatal error (nor in a nil dereference). A
missing primary key or annotation only selects a fallback value. -/
theorem only_unknown_types_fatal (L : Lib) (n : Nat) (f : FieldDefinition) (body : Schema)
    (replace : Bool) (hwf : SchemaWF body) (hf : FieldOf body f)
    (hflat : notNestedList f.Type_ = true) (hpk : PKNamed L body) :
    (GoType L n f body replace ≠ .outOfFuel → ∃ s, GoType L n f body replace = .ok s)
      ∧ (SpannerGoType L n f body replace ≠ .outOfFuel →
          ∃ s, SpannerGoType L n f body replace = .ok s) := by
  obtain ⟨k, d, hd, hmem⟩ := hf
  have hft : wfType body f.Type_ = true := hwf k d hd f hmem
  constructor
  · intro hne
    rcases GoType_graceful L n f body replace hwf hpk hft hflat with h | h
    · exact absurd h hne
    · exact h
  · intro hne
    rcases spannerGoSingleType_graceful L f body hwf hpk hft hflat n replace with h | h
    · exact absurd h hne
    · exact h

/-- Witness of the amended claim C10: the field item of the object Order
refers to the object Item, whose primary key is found and resolved. -/
theorem only_unknown_types_fatal_witness :
    SchemaWF shopSchema ∧ FieldOf shopSchema itemField
      ∧ notNestedList itemField.Type_ = true ∧ PKNamed sampleLib shopSchema
      ∧ (∃ s, GoType sampleLib 4 itemField shopSchema true = .ok s)
      ∧ (∃ s, SpannerGoType sampleLib 4 itemField shopSchema true = .ok s) :=
  ⟨schemaWF_of_entries shopSchema (by decide),
    ⟨"Order", orderDef, by decide, by decide⟩,
    by decide,
    pkNamed_of_entries sampleLib shopSchema (by decide),
    (only_unknown_types_fatal sampleLib 4 itemField shopSchema true
      (schemaWF_of_entries shopSchema (by decide)) ⟨"Order", orderDef, by decide, by decide⟩
      (by decide) (pkNamed_of_entries sampleLib shopSchema (by decide))).1 (by decide),
    (only_unknown_types_fatal sampleLib 4 itemField shopSchema true
      (schemaWF_of_entries shopSchema (by decide)) ⟨"Order", orderDef, by decide, by decide⟩
      (by decide) (pkNamed_of_entries sampleLib shopSchema (by decide))).2 (by decide)⟩

/-- Counterexample to claim C10 as stated. The schema with the object Grid
satisfies the data-model invariants, its field cells is a list of lists of
Int, and GoType and SpannerGoType of that field end in the fatal error under
both flag values. Likewise the schema with the objects Bag and Holder
satisfies the invariants, the primary key of Bag is a list, and the field bag
of Holder ends in the fatal error when object references are replaced. -/
theorem nested_list_is_fatal :
    (SchemaWF gridSchema ∧ FieldOf gridSchema cellsField
      ∧ GoType sampleLib 4 cellsField gridSchema false = .fatal ""
      ∧ GoType sampleLib 4 cellsField gridSchema true = .fatal ""
      ∧ SpannerGoType sampleLib 4 cellsField gridSchema false = .fatal ""
      ∧ SpannerGoType sampleLib 4 cellsField gridSchema true = .fatal "")
    ∧ (SchemaWF bagSchema ∧ FieldOf bagSchema bagField
      ∧ GoType sampleLib 4 bagField bagSchema true = .fatal ""
      ∧ SpannerGoType sampleLib 4 bagField bagSchema true = .fatal "") :=
  ⟨⟨schemaWF_of_entries gridSchema (by decide), ⟨"Grid", gridDef, by decide, by decide⟩,
      by decide, by decide, by decide, by decide⟩,
    ⟨schemaWF_of_entries bagSchema (by decide), ⟨"Holder", holderDef, by decide, by decide⟩,
      by decide, by decide⟩⟩

/-! ## References to objects without a primary key -/

/-- Claim C11. For a nullable field whose named type (a non-empty name other
than the built-in scalars) is an OBJECT-kind type of the schema none of whose
fields qualifies as primary key, SpannerGoType with the replace flag set
returns exactly spanner.NullString: it does not fail. An object without any
field is the special case of an empty field list. -/
theorem SpannerGoType_no_pk_fallback (L : Lib) (n : Nat) (f : FieldDefinition)
    (body : Schema) (d : Definition)
    (hn : f.Type_.NonNull = false) (hd : NamesType body f.Type_ d) (hk : d.Kind = "OBJECT")
    (hq : ∀ g ∈ d.Fields, ¬ Qualifies L f.Type_.NamedType g) :
    SpannerGoType L (n + 1) f body true = .ok "spanner.NullString" := by
  have hpk : foundPK L f.Type_.NamedType d.Fields = none :=
    (foundPK_none L _ d.Fields).mpr fun g hg => (pkCond_false_iff L _ g).mpr (hq g hg)
  unfold SpannerGoType
  rw [spannerGoSingleType_custom L n f body true hd.2.1 hd.1, hd.2.2]
  simp [hk, hn, hpk]

/-- Witness of claim C11: the object Note has a field but no primary key, and
the object Empty has no field at all. -/
theorem SpannerGoType_no_pk_fallback_witness :
    SpannerGoType sampleLib 1 noteField crmSchema true = .ok "spanner.NullString"
      ∧ SpannerGoType sampleLib 1
          { Description := "", Name := "nothing", Type_ := .ref "Empty" false } crmSchema true
        = .ok "spanner.NullString" :=
  ⟨SpannerGoType_no_pk_fallback sampleLib 0 noteField crmSchema noteDef (by decide)
      ⟨by decide, by decide, by decide⟩ (by decide)
      (fun g hg => (pkCond_false_iff sampleLib _ g).mp
        ((by decide : ∀ g ∈ noteDef.Fields, pkCond sampleLib "Note" g = false) g hg)),
    SpannerGoType_no_pk_fallback sampleLib 0
      { Description := "", Name := "nothing", Type_ := .ref "Empty" false } crmSchema emptyDef
      (by decide) ⟨by decide, by decide, by decide⟩ (by decide)
      (fun g hg => absurd hg (List.not_mem_nil g))⟩

/-! ## Foreign-key column names -/

theorem isObject_true_iff (f : FieldDefinition) (body : Schema) :
    isObject f body = .ok true ↔
      ∃ nt d, targetNamedType f = .ok nt ∧ body.find nt = some d ∧ d.Kind = "OBJECT" := by
  unfold isObject
  cases ht : targetNamedType f with
  | ok nt =>
    cases hd : body.find nt with
    | none => simp [hd]
    | some d =>
      by_cases hk : d.Kind = "OBJECT"
      · simp [hd, hk]
      · simp [hd, hk]
  | fatal m => simp
  | nilDeref => simp
  | outOfFuel => simp

theorem targetNamedType_list (f : FieldDefinition) (nt : String)
    (h0 : f.Type_.NamedType = "") (ht : targetNamedType f = .ok nt) :
    ∃ e, f.Type_.Elem = some e ∧ e.NamedType = nt := by
  unfold targetNamedType at ht
  rw [if_pos h0] at ht
  cases he : f.Type_.Elem with
  | none => simp [he] at ht
  | some e =>
    simp only [he, Outcome.ok.injEq] at ht
    exact ⟨e, rfl, ht⟩

theorem ConvertObjectFieldName_of_object (L : Lib) (f : FieldDefinition) (body : Schema)
    (h : isObject f body = .ok true) :
    ConvertObjectFieldName L f body =
      .ok (if f.Type_.NamedType = "" then
            L.Plural (L.Singular ((spanColumnRe f.Description).getD f.Name) ++ "Id")
          else (spanColumnRe f.Description).getD f.Name ++ "Id") := by
  obtain ⟨nt, d, ht, hd, hk⟩ := (isObject_true_iff f body).mp h
  unfold ConvertObjectFieldName
  rw [h]
  simp only [ht, hd, hk, if_true]
  cases spanColumnRe f.Description <;> by_cases h0 : f.Type_.NamedType = "" <;> simp [h0]

/-- Claim C12. For every object-typed field, with name0 the SpannerColumn
override of its description when there is one and its field name otherwise,
ConvertObjectFieldName returns name0 followed by Id for a singular reference
and Plural (Singular name0 followed by Id) for a list. The field customer of
type Customer gives customerId for every library; the field items, a list of
Item, gives itemIds for every inflection library that singularizes items to
item and pluralizes itemId to itemIds. -/
theorem ConvertObjectFieldName_foreign_key :
    (∀ (L : Lib) (f : FieldDefinition) (body : Schema), isObject f body = .ok true →
      ConvertObjectFieldName L f body =
        .ok (if f.Type_.NamedType = "" then
              L.Plural (L.Singular ((spanColumnRe f.Description).getD f.Name) ++ "Id")
            else (spanColumnRe f.Description).getD f.Name ++ "Id"))
    ∧ (∀ L : Lib, ConvertObjectFieldName L customerField crmSchema = .ok "customerId")
    ∧ (∀ L : Lib, L.Singular "items" = "item" → L.Plural "itemId" = "itemIds" →
        ConvertObjectFieldName L itemsField crmSchema = .ok "itemIds") := by
  refine ⟨ConvertObjectFieldName_of_object, fun L => ?_, fun L hs hp => ?_⟩
  · rw [ConvertObjectFieldName_of_object L customerField crmSchema (by decide)]
    have h1 : (spanColumnRe customerField.Description).getD customerField.Name = "customer" := by
      decide
    have h2 : ¬ customerField.Type_.NamedType = "" := by decide
    have h3 : ("customer" : String) ++ "Id" = "customerId" := by decide
    rw [h1, if_neg h2, h3]
  · rw [ConvertObjectFieldName_of_object L itemsField crmSchema (by decide)]
    have h1 : (spanColumnRe itemsField.Description).getD itemsField.Name = "items" := by decide
    have h2 : itemsField.Type_.NamedType = "" := by decide
    have h3 : ("item" : String) ++ "Id" = "itemId" := by decide
    rw [h1, if_pos h2, hs, h3, hp]

/-- Witness of claim C12, at the sample library: customer and items. -/
theorem ConvertObjectFieldName_foreign_key_witness :
    ConvertObjectFieldName sampleLib customerField crmSchema = .ok "customerId"
      ∧ ConvertObjectFieldName sampleLib itemsField crmSchema = .ok "itemIds" :=
  ⟨ConvertObjectFieldName_foreign_key.2.1 sampleLib,
    ConvertObjectFieldName_foreign_key.2.2 sampleLib (by decide) (by decide)⟩

/-! ## Collapse of a reference to the primary key -/

/-- Claim C13. For a type reference naming a type T of the schema (not a
built-in scalar name) that has no GoType override: with the replace flag set,
the call of goSingleType returns what the nested call on the type of the
primary key pk = foundPK (T.name, T.fields) returns, the nested call having
one unit of budget less; it returns string when foundPK finds no key, in
particular when T has no fields, as enums and custom scalars do; with the flag
unset it returns the bare name of T. -/
theorem goSingleType_collapse (L : Lib) (n : Nat) (t : AstType) (body : Schema)
    (d : Definition) (hb : isBuiltin t.NamedType = false)
    (hd : body.find t.NamedType = some d) (hname : d.Name = t.NamedType)
    (hov : gotypeRe d.Description = none) :
    (∀ pk, foundPK L d.Name d.Fields = some pk →
        goSingleType L (n + 1) t body true = goSingleType L n pk.Type_ body true)
      ∧ (foundPK L d.Name d.Fields = none → goSingleType L (n + 1) t body true = .ok "string")
      ∧ (d.Fields = [] → goSingleType L (n + 1) t body true = .ok "string")
      ∧ goSingleType L (n + 1) t body false = .ok d.Name := by
  have hT := goSingleType_custom L n t body true hb
  have hF := goSingleType_custom L n t body false hb
  rw [hd] at hT hF
  simp only [hov] at hT hF
  rw [hname]
  refine ⟨fun pk hpk => ?_, fun hpk => ?_, fun hnil => ?_, ?_⟩
  · rw [hT]
    simp [hpk]
  · rw [hT]
    simp [hpk]
  · rw [hT]
    simp [hnil, foundPK]
  · rw [hF]
    simp

/-- Witness of claim C13: a reference to the object Item, whose primary key
is the Int field id, resolves to int64 when replaced and to Item otherwise. -/
theorem goSingleType_collapse_witness :
    foundPK sampleLib itemDef.Name itemDef.Fields = some itemIdField
      ∧ goSingleType sampleLib (1 + 1) (.ref "Item" false) crmSchema true
          = goSingleType sampleLib 1 itemIdField.Type_ crmSchema true
      ∧ goSingleType sampleLib (1 + 1) (.ref "Item" false) crmSchema true = .ok "int64"
      ∧ goSingleType sampleLib (1 + 1) (.ref "Item" false) crmSchema false = .ok "Item" :=
  ⟨by decide,
    (goSingleType_collapse sampleLib 1 (.ref "Item" false) crmSchema itemDef
      (by decide) (by decide) (by decide) (by decide)).1 itemIdField (by decide),
    by decide,
    (goSingleType_collapse sampleLib 1 (.ref "Item" false) crmSchema itemDef
      (by decide) (by decide) (by decide) (by decide)).2.2.2⟩

/-! ## Persisted types of object and enum references -/

theorem prepend_empty (o : Outcome String) : o.prepend "" = o := by
  cases o <;> simp [Outcome.prepend]

theorem addPtPrefixIfNull_nonNull (t : AstType) (h : t.NonNull = true) :
    addPtPrefixIfNull t = "" := by
  simp [addPtPrefixIfNull, h]

/-- Claim C14, amended. For a field whose named type (a non-empty name other
than the built-in scalars) is an OBJECT-kind type of the schema, and for which
nonNull is true or the replace flag is unset, SpannerGoType returns the
nullability marker followed by the GoType override of the object when it has
one; without an override it returns the marker followed by the bare type name
when the flag is unset, and, when the flag is set (so the field is non-null
and the marker empty), what goSingleType returns for the type of the
primary-key field of the object, or string when the object has no primary
key. -/
theorem SpannerGoType_object_direct (L : Lib) (n : Nat) (f : FieldDefinition)
    (body : Schema) (replace : Bool) (d : Definition)
    (hd : NamesType body f.Type_ d) (hk : d.Kind = "OBJECT")
    (hc : f.Type_.NonNull = true ∨ replace = false) :
    SpannerGoType L (n + 2) f body replace =
      match gotypeRe d.Description with
      | some foo => .ok ((if f.Type_.NonNull then "" else "*") ++ foo)
      | none =>
        if replace = false then .ok ((if f.Type_.NonNull then "" else "*") ++ f.Type_.NamedType)
        else
          match foundPK L f.Type_.NamedType d.Fields with
          | some pk => goSingleType L n pk.Type_ body true
          | none => .ok "string" := by
  have hcond : (f.Type_.NonNull || !replace) = true := by
    rcases hc with h | h <;> simp [h]
  have hne : ¬ d.Kind = "ENUM" := by
    rw [hk]
    decide
  unfold SpannerGoType
  rw [spannerGoSingleType_custom L (n + 1) f body replace hd.2.1 hd.1, hd.2.2]
  simp only [hne, hk, hcond, if_true, if_false]
  rw [goSingleType_custom L n f.Type_ body replace hd.2.1, hd.2.2]
  cases hov : gotypeRe d.Description with
  | some foo => simp [hov, Outcome.prepend, addPtPrefixIfNull]
  | none =>
    cases replace with
    | false => simp [hov, Outcome.prepend, addPtPrefixIfNull]
    | true =>
      have hnn : f.Type_.NonNull = true := by
        rcases hc with h | h
        · exact h
        · cases h
      rw [addPtPrefixIfNull_nonNull f.Type_ hnn, prepend_empty]
      cases hpk : foundPK L f.Type_.NamedType d.Fields <;> simp [hov, hpk]

/-- Witness of the amended claim C14: the non-null reference buyer to the
object Customer, with the flag unset, is rendered by the bare type name. -/
theorem SpannerGoType_object_direct_witness :
    NamesType crmSchema buyerField.Type_ customerDef ∧ customerDef.Kind = "OBJECT"
      ∧ SpannerGoType sampleLib (0 + 2) buyerField crmSchema false = .ok "Customer" :=
  ⟨⟨by decide, by decide, by decide⟩, by decide,
    (SpannerGoType_object_direct sampleLib 0 buyerField crmSchema false customerDef
      ⟨by decide, by decide, by decide⟩ (by decide) (Or.inl (by decide))).trans (by decide)⟩

/-- Counterexample to claim C14 as stated: the field firstItem is a non-null
reference to the object Item, which has no GoType override, and with the
replace flag set SpannerGoType renders it as int64, the base type of the
primary key id of Item, not as the bare type name Item. -/
theorem SpannerGoType_nonNull_object_collapses :
    crmSchema.find firstItemField.Type_.NamedType = some itemDef
      ∧ itemDef.Kind = "OBJECT"
      ∧ gotypeRe itemDef.Description = none
      ∧ firstItemField.Type_.NonNull = true
      ∧ SpannerGoType sampleLib 3 firstItemField crmSchema true = .ok "int64" := by
  decide

/-! ## A primary-key cycle -/

theorem goSingleType_cycle (L : Lib) (n : Nat) :
    goSingleType L n (.ref "Left" true) cycleSchema true = .outOfFuel
      ∧ goSingleType L n (.ref "Right" true) cycleSchema true = .outOfFuel := by
  have hmark : strContains "SpannerPK" "SpannerPK" = true := by decide
  induction n with
  | zero => exact ⟨rfl, rfl⟩
  | succ n ih =>
    constructor
    · rw [goSingleType_custom L n (.ref "Left" true) cycleSchema true (by decide)]
      have hf : cycleSchema.find (AstType.ref "Left" true).NamedType = some leftDef := by decide
      have hov : gotypeRe leftDef.Description = none := by decide
      have hpk : foundPK L (AstType.ref "Left" true).NamedType leftDef.Fields
          = some leftKeyField := by
        simp [foundPK, leftDef, pkCond, leftKeyField, hmark]
      rw [hf]
      simp only [hov, hpk]
      exact ih.2
    · rw [goSingleType_custom L n (.ref "Right" true) cycleSchema true (by decide)]
      have hf : cycleSchema.find (AstType.ref "Right" true).NamedType = some rightDef := by decide
      have hov : gotypeRe rightDef.Description = none := by decide
      have hpk : foundPK L (AstType.ref "Right" true).NamedType rightDef.Fields
          = some rightKeyField := by
        simp [foundPK, rightDef, pkCond, rightKeyField, hmark]
      rw [hf]
      simp only [hov, hpk]
      exact ih.1

/-- Claim C15. The schema with the objects Left and Right satisfies the
data-model invariants, the primary-key field of each has the other object as
its type, and goSingleType with the replace flag set, applied to a reference
to either of them, uses up every call budget: it never returns. With the flag
unset the same reference returns at once. -/
theorem pk_cycle_never_returns :
    SchemaWF cycleSchema
      ∧ cycleSchema.find "Left" = some leftDef ∧ leftDef.Kind = "OBJECT"
      ∧ cycleSchema.find "Right" = some rightDef ∧ rightDef.Kind = "OBJECT"
      ∧ (∀ L : Lib, foundPK L "Left" leftDef.Fields = some leftKeyField
          ∧ foundPK L "Right" rightDef.Fields = some rightKeyField)
      ∧ leftKeyField.Type_ = .ref "Right" true ∧ rightKeyField.Type_ = .ref "Left" true
      ∧ (∀ (L : Lib) (n : Nat),
          goSingleType L n (.ref "Left" true) cycleSchema true = .outOfFuel
            ∧ goSingleType L n (.ref "Right" true) cycleSchema true = .outOfFuel)
      ∧ (∀ (L : Lib) (n : Nat),
          goSingleType L (n + 1) (.ref "Left" true) cycleSchema false = .ok "Left") := by
  have hmark : strContains "SpannerPK" "SpannerPK" = true := by decide
  refine ⟨schemaWF_of_entries cycleSchema (by decide), by decide, by decide, by decide,
    by decide, fun L => ⟨?_, ?_⟩, rfl, rfl, goSingleType_cycle, fun L n => ?_⟩
  · simp [foundPK, leftDef, pkCond, leftKeyField, hmark]
  · simp [foundPK, rightDef, pkCond, rightKeyField, hmark]
  · rw [goSingleType_custom L n (.ref "Left" true) cycleSchema false (by decide)]
    have hf : cycleSchema.find (AstType.ref "Left" true).NamedType = some leftDef := by decide
    have hov : gotypeRe leftDef.Description = none := by decide
    rw [hf]
    simp only [hov]
    rfl

/-! ## Enum references -/

/-- Claim C16. For a field whose named type (a non-empty name other than the
built-in scalars) is an ENUM-kind type of the schema, and for both flag
values: when the field is non-null SpannerGoType returns what goSingleType
returns for the type of the field, and when it is nullable it returns exactly
spanner.NullString, whether or not the enum carries a GoType override. -/
theorem SpannerGoType_enum (L : Lib) (n : Nat) (f : FieldDefinition) (body : Schema)
    (replace : Bool) (d : Definition)
    (hd : NamesType body f.Type_ d) (hk : d.Kind = "ENUM") :
    (f.Type_.NonNull = true →
        SpannerGoType L (n + 1) f body replace = goSingleType L n f.Type_ body replace)
      ∧ (f.Type_.NonNull = false →
        SpannerGoType L (n + 1) f body replace = .ok "spanner.NullString") := by
  unfold SpannerGoType
  rw [spannerGoSingleType_custom L n f body replace hd.2.1 hd.1, hd.2.2]
  constructor
  · intro hnn
    simp only [hk, hnn, if_true]
    rw [addPtPrefixIfNull_nonNull f.Type_ hnn, prepend_empty]
  · intro hnn
    simp [hk, hnn]

/-- Witness of claim C16: the non-null field status and the nullable field
lastStatus, both of the enum Status. -/
theorem SpannerGoType_enum_witness :
    SpannerGoType sampleLib (1 + 1) statusField crmSchema false = .ok "Status"
      ∧ SpannerGoType sampleLib (1 + 1) lastStatusField crmSchema false
          = .ok "spanner.NullString" :=
  ⟨((SpannerGoType_enum sampleLib 1 statusField crmSchema false statusDef
      ⟨by decide, by decide, by decide⟩ (by decide)).1 (by decide)).trans (by decide),
    (SpannerGoType_enum sampleLib 1 lastStatusField crmSchema false statusDef
      ⟨by decide, by decide, by decide⟩ (by decide)).2 (by decide)⟩

/-! ## Persisted type against plain field type -/

theorem GoType_list (L : Lib) (n : Nat) (f : FieldDefinition) (body : Schema)
    (replace : Bool) (h0 : f.Type_.NamedType = "") :
    GoType L n f body replace =
      match f.Type_.Elem with
      | none => .nilDeref
      | some e => (goSingleType L n e body replace).prepend ("[]" ++ addPtPrefixIfNull e) := by
  simp [GoType, h0]

theorem GoType_named (L : Lib) (n : Nat) (f : FieldDefinition) (body : Schema)
    (replace : Bool) (h0 : f.Type_.NamedType ≠ "") :
    GoType L n f body replace =
      (goSingleType L n f.Type_ body replace).prepend (addPtPrefixIfNull f.Type_) := by
  unfold GoType
  split_ifs <;> rfl

theorem prepend_ok_inv (p s : String) (o : Outcome String) (h : o.prepend p = .ok s) :
    ∃ r, o = .ok r ∧ s = p ++ r := by
  cases o with
  | ok r =>
    simp only [Outcome.prepend, Outcome.ok.injEq] at h
    exact ⟨r, rfl, h.symm⟩
  | fatal m => simp [Outcome.prepend] at h
  | nilDeref => simp [Outcome.prepend] at h
  | outOfFuel => simp [Outcome.prepend] at h

/-- Claim C17. For a field that is a list or is non-null, SpannerGoType and
GoType end the same way, for every schema and both flag values: the same
string, the same fatal error, or the same failure; the budget of
SpannerGoType is one more because it makes the call of goSingleType from one
call deeper. For a list field every string SpannerGoType returns begins with
the brackets, so it is never a spanner.Null wrapper. -/
theorem SpannerGoType_eq_GoType (L : Lib) (n : Nat) (f : FieldDefinition) (body : Schema)
    (replace : Bool) (h : f.Type_.NamedType = "" ∨ f.Type_.NonNull = true) :
    SpannerGoType L (n + 1) f body replace = GoType L n f body replace
      ∧ (f.Type_.NamedType = "" → ∀ s, SpannerGoType L (n + 1) f body replace = .ok s →
          ∃ rest, s = "[]" ++ rest) := by
  unfold SpannerGoType
  constructor
  · by_cases h0 : f.Type_.NamedType = ""
    · rw [spannerGoSingleType_list L n f body replace h0, GoType_list L n f body replace h0]
    · have hnn : f.Type_.NonNull = true := h.resolve_left h0
      rw [GoType_named L n f body replace h0, addPtPrefixIfNull_nonNull f.Type_ hnn,
        prepend_empty]
      cases hb : isBuiltin f.Type_.NamedType with
      | true =>
        rw [spannerGoSingleType_builtin L n f body replace hb]
        simp [hnn]
      | false =>
        rw [spannerGoSingleType_custom L n f body replace hb h0]
        cases body.find f.Type_.NamedType with
        | none => simp [addPtPrefixIfNull_nonNull f.Type_ hnn, prepend_empty]
        | some d =>
          simp only [hnn, Bool.true_or, if_true, addPtPrefixIfNull_nonNull f.Type_ hnn,
            prepend_empty]
          split_ifs <;> rfl
  · intro h0 s hs
    rw [spannerGoSingleType_list L n f body replace h0] at hs
    cases he : f.Type_.Elem with
    | none => simp [he] at hs
    | some e =>
      simp only [he] at hs
      obtain ⟨r, _, hr⟩ := prepend_ok_inv _ _ _ hs
      exact ⟨addPtPrefixIfNull e ++ r, by rw [hr, String.append_assoc]⟩

/-- Witness of claim C17: the list field items, whose result begins with the
brackets, and the non-null object reference buyer. -/
theorem SpannerGoType_eq_GoType_witness :
    SpannerGoType sampleLib (2 + 1) itemsField crmSchema true
        = GoType sampleLib 2 itemsField crmSchema true
      ∧ GoType sampleLib 2 itemsField crmSchema true = .ok "[]int64"
      ∧ SpannerGoType sampleLib (2 + 1) buyerField crmSchema false
        = GoType sampleLib 2 buyerField crmSchema false
      ∧ GoType sampleLib 2 buyerField crmSchema false = .ok "Customer" :=
  ⟨(SpannerGoType_eq_GoType sampleLib 2 itemsField crmSchema true (Or.inl (by decide))).1,
    by decide,
    (SpannerGoType_eq_GoType sampleLib 2 buyerField crmSchema false (Or.inr (by decide))).1,
    by decide⟩

/-! ## The recursion of the persisted resolver -/

/-- Claim C18. For every schema, cyclic or not, and every nullable field whose
named type (a non-empty name other than the built-in scalars) is an
OBJECT-kind type of the schema, SpannerGoType with the replace flag set
returns a string within a budget of three calls: the call itself, at most one
recursive call of spannerGoSingleType, made with the flag unset, and one call
of goSingleType. The string is the star followed by the override or bare name
of the object when a primary key is found, and spanner.NullString otherwise.
With the flag unset goSingleType never needs more than one call. -/
theorem SpannerGoType_object_bounded (L : Lib) (n : Nat) (f : FieldDefinition)
    (body : Schema) (d : Definition)
    (hn : f.Type_.NonNull = false) (hd : NamesType body f.Type_ d) (hk : d.Kind = "OBJECT") :
    SpannerGoType L (n + 3) f body true =
        .ok (match foundPK L f.Type_.NamedType d.Fields with
          | some _ => "*" ++ (gotypeRe d.Description).getD f.Type_.NamedType
          | none => "spanner.NullString")
      ∧ ∀ t : AstType, goSingleType L 1 t body false ≠ .outOfFuel := by
  have hne : ¬ d.Kind = "ENUM" := by
    rw [hk]
    decide
  constructor
  · unfold SpannerGoType
    rw [spannerGoSingleType_custom L (n + 2) f body true hd.2.1 hd.1, hd.2.2]
    simp only [hne, hk, hn, if_true, if_false, Bool.not_true, Bool.or_self,
      Bool.false_eq_true]
    cases hpk : foundPK L f.Type_.NamedType d.Fields with
    | none => rfl
    | some pk =>
      simp only
      rw [spannerGoSingleType_custom L (n + 1) f body false hd.2.1 hd.1, hd.2.2]
      simp only [hne, hk, if_true, if_false, Bool.not_false, Bool.or_true]
      rw [goSingleType_custom L n f.Type_ body false hd.2.1, hd.2.2]
      cases hov : gotypeRe d.Description <;>
        simp [hov, Outcome.prepend, addPtPrefixIfNull, hn]
  · intro t
    cases hb : isBuiltin t.NamedType with
    | true =>
      rw [goSingleType_builtin L 0 t body false hb]
      exact fun h => nomatch h
    | false =>
      rw [goSingleType_custom L 0 t body false hb]
      cases hf : body.find t.NamedType with
      | none => simp
      | some d0 => cases hov : gotypeRe d0.Description <;> simp [hov]

/-- Witness of claim C18: a nullable reference to the object Left of the
schema with the primary-key cycle returns within three calls. -/
theorem SpannerGoType_object_bounded_witness :
    NamesType cycleSchema peerField.Type_ leftDef ∧ leftDef.Kind = "OBJECT"
      ∧ peerField.Type_.NonNull = false
      ∧ SpannerGoType sampleLib (0 + 3) peerField cycleSchema true = .ok "*Left" :=
  ⟨⟨by decide, by decide, by decide⟩, by decide, by decide,
    (SpannerGoType_object_bounded sampleLib 0 peerField cycleSchema leftDef (by decide)
      ⟨by decide, by decide, by decide⟩ (by decide)).1.trans (by decide)⟩

/-! ## The nullability of a list itself -/

/-- Claim C19. Two list-typed fields that differ only in the nonNull flag of
the list type itself (same element type, name and description) get the same
result from GoType and the same result from SpannerGoType, for every schema
and both flag values. The result is the brackets, then a star exactly when
the element is nullable, then the base type of the element. -/
theorem list_nonNull_irrelevant (L : Lib) (n : Nat) (body : Schema) (replace : Bool)
    (name desc : String) (e : AstType) (b1 b2 : Bool) :
    GoType L n { Description := desc, Name := name, Type_ := .wrap "" e b1 } body replace
        = GoType L n { Description := desc, Name := name, Type_ := .wrap "" e b2 } body replace
      ∧ SpannerGoType L n { Description := desc, Name := name, Type_ := .wrap "" e b1 } body
          replace
        = SpannerGoType L n { Description := desc, Name := name, Type_ := .wrap "" e b2 } body
          replace
      ∧ GoType L n { Description := desc, Name := name, Type_ := .wrap "" e b1 } body replace
        = (goSingleType L n e body replace).prepend ("[]" ++ (if e.NonNull then "" else "*"))
      ∧ SpannerGoType L (n + 1) { Description := desc, Name := name, Type_ := .wrap "" e b1 }
          body replace
        = (goSingleType L n e body replace).prepend
            ("[]" ++ (if e.NonNull then "" else "*")) := by
  have hG : ∀ b : Bool,
      GoType L n { Description := desc, Name := name, Type_ := .wrap "" e b } body replace
        = (goSingleType L n e body replace).prepend
            ("[]" ++ (if e.NonNull then "" else "*")) := by
    intro b
    rw [GoType_list L n { Description := desc, Name := name, Type_ := .wrap "" e b } body
      replace rfl]
    rfl
  have hS : ∀ (m : Nat) (b : Bool),
      SpannerGoType L (m + 1) { Description := desc, Name := name, Type_ := .wrap "" e b } body
          replace
        = (goSingleType L m e body replace).prepend
            ("[]" ++ (if e.NonNull then "" else "*")) := by
    intro m b
    unfold SpannerGoType
    rw [spannerGoSingleType_list L m { Description := desc, Name := name, Type_ := .wrap "" e b }
      body replace rfl]
    rfl
  refine ⟨by rw [hG b1, hG b2], ?_, hG b1, hS n b1⟩
  cases n with
  | zero => rfl
  | succ m => rw [hS m b1, hS m b2]

/-- Witness of claim C19: the list of Item, once as a nullable and once as a
non-null list, under both helpers. -/
theorem list_nonNull_irrelevant_witness :
    GoType sampleLib 2 { Description := "", Name := "items", Type_ := .wrap "" (.ref "Item" false) false }
        crmSchema true = .ok "[]*int64"
      ∧ GoType sampleLib 2 { Description := "", Name := "items", Type_ := .wrap "" (.ref "Item" false) true }
        crmSchema true = .ok "[]*int64" :=
  ⟨((list_nonNull_irrelevant sampleLib 2 crmSchema true "items" "" (.ref "Item" false)
      false true).1).trans (by decide),
    ((list_nonNull_irrelevant sampleLib 2 crmSchema true "items" "" (.ref "Item" false)
      true false).1).trans (by decide)⟩

/-! ## The guard of ConvertObjectFieldName -/

theorem append_Id_ne (a : String) : a ++ "Id" ≠ a := by
  intro h
  have hlen := congrArg String.length h
  have h2 : ("Id" : String).length = 2 := by decide
  rw [String.length_append, h2] at hlen
  omega

/-- Claim C20, amended. Whenever the isObject guard passes, the lookup of the
referenced named type succeeds with kind OBJECT, so the branches that return
the name unchanged are not reached and the result is one of the two
foreign-key forms built from name0 (the SpannerColumn override, or the field
name without one): name0 followed by Id, or the pluralized form for a list.
For a singular reference the result differs from name0, and from the field
name when the description has no override. Whenever isObject is false the
result is the plain field name. The converse is not claimed: with an override
the foreign-key form can be the field name itself. -/
theorem ConvertObjectFieldName_guard (L : Lib) (f : FieldDefinition) (body : Schema) :
    (isObject f body = .ok true →
      (∃ nt d, targetNamedType f = .ok nt ∧ body.find nt = some d ∧ d.Kind = "OBJECT")
        ∧ ConvertObjectFieldName L f body =
            .ok (if f.Type_.NamedType = "" then
                  L.Plural (L.Singular ((spanColumnRe f.Description).getD f.Name) ++ "Id")
                else (spanColumnRe f.Description).getD f.Name ++ "Id")
        ∧ (f.Type_.NamedType ≠ "" →
            ConvertObjectFieldName L f body ≠ .ok ((spanColumnRe f.Description).getD f.Name)
              ∧ (spanColumnRe f.Description = none →
                  ConvertObjectFieldName L f body ≠ .ok f.Name)))
    ∧ (isObject f body = .ok false → ConvertObjectFieldName L f body = .ok f.Name) := by
  constructor
  · intro h
    have hres := ConvertObjectFieldName_of_object L f body h
    refine ⟨(isObject_true_iff f body).mp h, hres, fun h0 => ?_⟩
    rw [hres, if_neg h0]
    constructor
    · intro heq
      exact append_Id_ne _ (Outcome.ok.inj heq)
    · intro hnone heq
      rw [hnone] at heq
      exact append_Id_ne _ (Outcome.ok.inj heq)
  · intro h
    simp [ConvertObjectFieldName, h]

/-- Witness of the amended claim C20: the field customer passes the guard and
gets the foreign-key form, the field name does not and keeps its name. -/
theorem ConvertObjectFieldName_guard_witness :
    isObject customerField crmSchema = .ok true
      ∧ ConvertObjectFieldName sampleLib customerField crmSchema = .ok "customerId"
      ∧ isObject nameField crmSchema = .ok false
      ∧ ConvertObjectFieldName sampleLib nameField crmSchema = .ok "name" :=
  ⟨by decide,
    ((ConvertObjectFieldName_guard sampleLib customerField crmSchema).1 (by decide)).2.1.trans
      (by decide),
    by decide,
    (ConvertObjectFieldName_guard sampleLib nameField crmSchema).2 (by decide)⟩

/-- Counterexample to claim C20 as stated: the field customerId refers to the
object Customer and carries the column override customer; the isObject guard
passes, and ConvertObjectFieldName returns customerId, which is the plain
field name. -/
theorem ConvertObjectFieldName_returns_field_name_for_object :
    isObject customerIdField crmSchema = .ok true
      ∧ spanColumnRe customerIdField.Description = some "customer"
      ∧ customerIdField.Name = "customerId"
      ∧ ConvertObjectFieldName sampleLib customerIdField crmSchema
          = .ok customerIdField.Name := by
  decide

end GqlTemplate
